import Mathlib

/- Verification development for the incremental feed collection engine of a
   social-media crawler (`twitter_crawler.py`): timestamp normalisation
   (`parse_tweet_time_to_timestamp`), per-item field extraction
   (`extract_tweet_data`) and the fingerprint-deduplicating, time-window-bounded
   collection loop (`scroll_and_collect_tweets`).

   Modelling conventions: instants are `Int` Unix seconds (the Python code uses
   float seconds; every comparison and computation relevant here is integral),
   strings are ASCII in all concrete inputs, the per-call `time.time()` read of
   the source is the explicit `now` argument, and Python's opaque `hash` is an
   explicit function parameter `hashFn`. -/

namespace Crawler

/-- Kernel-computable string primitives, each equivalent to the Python string
operation the source uses (on the ASCII strings involved); the core `String`
API versions are position-based and do not reduce inside the kernel. -/
def charIn (c : Char) (s : String) : Bool := s.data.contains c

/-- One list is a prefix of another. -/
def prefixOfList : List Char → List Char → Bool
  | [], _ => true
  | _ :: _, [] => false
  | a :: as, b :: bs => a = b && prefixOfList as bs

/-- `pat` occurs as a contiguous subsequence of `hay`. -/
def hasSubseq (pat : List Char) : List Char → Bool
  | [] => pat.isEmpty
  | c :: t => prefixOfList pat (c :: t) || hasSubseq pat t

/-- True when `pat` occurs as a substring of `s` (Python's `pat in s`). -/
def strContains (s pat : String) : Bool := hasSubseq pat.data s.data

/-- ASCII lowercasing (Python `str.lower()` on ASCII input). -/
def strLower (s : String) : String := String.mk (s.data.map Char.toLower)

/-- Replace every occurrence of the character `c` by `rep`
(Python `str.replace` with a one-character pattern). -/
def replaceCharList (c : Char) (rep : List Char) : List Char → List Char
  | [] => []
  | d :: ds =>
    if d = c then rep ++ replaceCharList c rep ds
    else d :: replaceCharList c rep ds

/-- `s.replace(c, rep)` for a one-character pattern. -/
def pyReplace (s : String) (c : Char) (rep : String) : String :=
  String.mk (replaceCharList c rep.data s.data)

/-- Split on a two-character separator `c1 c2`, keeping empty pieces
(Python `str.split(sep)` for a two-character `sep`, non-overlapping,
leftmost first). -/
def splitTwoAux (c1 c2 : Char) : List Char → List Char → List String
  | acc, [] => [String.mk acc.reverse]
  | acc, [d] => [String.mk (d :: acc).reverse]
  | acc, d :: e :: rest =>
    if d = c1 ∧ e = c2 then
      String.mk acc.reverse :: splitTwoAux c1 c2 [] rest
    else splitTwoAux c1 c2 (d :: acc) (e :: rest)

/-- `s.split(sep)` for the two-character separator `c1 c2`. -/
def pySplitTwo (s : String) (c1 c2 : Char) : List String :=
  splitTwoAux c1 c2 [] s.data

/-- ASCII whitespace. -/
def isSpaceChar (c : Char) : Bool :=
  c = ' ' ∨ c = '\t' ∨ c = '\n' ∨ c = '\r' ∨ c = '\x0b' ∨ c = '\x0c'

/-- Strip leading and trailing whitespace (Python `str.strip()` on ASCII). -/
def pyStrip (s : String) : String :=
  String.mk (((s.data.dropWhile isSpaceChar).reverse.dropWhile isSpaceChar).reverse)

/-- Numeric value of a list of decimal digit characters. -/
def digitsToNat (ds : List Char) : Nat :=
  ds.foldl (fun a c => a * 10 + (c.toNat - 48)) 0

/-- First maximal run of decimal digits in a character list, if any. -/
def firstDigitRunAux : List Char → Option (List Char)
  | [] => none
  | c :: cs =>
    if c.isDigit then some (c :: cs.takeWhile Char.isDigit)
    else firstDigitRunAux cs

/-- The spec's notion of "the leading/embedded integer n" of a raw time
string: the value of the first digit run, `none` when there is no digit.
Used only by the reference definition written from the spec's words — the
source itself never extracts a number (see `hasBackslashD`). -/
def specFirstInt (s : String) : Option Nat :=
  (firstDigitRunAux s.data).map digitsToNat

/-- True when the source's number-extraction regex finds a match: the raw
pattern on line 216 is an escaped backslash followed by `d+`, so a match is
a literal backslash character followed by one or more letters `d` — never a
digit run. (Whenever a match exists, the source's `int(numbers[0])` raises
`ValueError`, which the enclosing `try` turns into the sentinel `0`.) -/
def hasBackslashD : List Char → Bool
  | '\\' :: 'd' :: _ => true
  | _ :: rest => hasBackslashD rest
  | [] => false

/-- Read exactly `n` decimal digits, returning their value and the rest. -/
def readDigits : Nat → Nat → List Char → Option (Nat × List Char)
  | 0, acc, cs => some (acc, cs)
  | _ + 1, _, [] => none
  | n + 1, acc, c :: cs =>
    if c.isDigit then readDigits n (acc * 10 + (c.toNat - 48)) cs else none

/-- Consume one expected character. -/
def expectChar (c : Char) : List Char → Option (List Char)
  | d :: cs => if d = c then some cs else none
  | [] => none

/-- Gregorian leap year. -/
def isLeap (y : Nat) : Bool := (y % 4 = 0 && y % 100 != 0) || y % 400 = 0

/-- Number of days of month `m` in year `y`. -/
def daysInMonth (y m : Nat) : Nat :=
  if m = 2 then (if isLeap y then 29 else 28)
  else if m = 4 ∨ m = 6 ∨ m = 9 ∨ m = 11 then 30
  else 31

/-- Days from the civil epoch era origin to year `y`, month `m`, day `d`
(Gregorian, valid for `y ≥ 1`), counted in a non-negative era frame. -/
def daysFromCivilNat (y m d : Nat) : Nat :=
  let y' := if m ≤ 2 then y - 1 else y
  let era := y' / 400
  let yoe := y' - era * 400
  let doy := (153 * (if m > 2 then m - 3 else m + 9) + 2) / 5 + (d - 1)
  let doe := ((yoe * 365 + yoe / 4) - yoe / 100) + doy
  era * 146097 + doe

/-- Days between 1970-01-01 and the civil date `y-m-d` (may be negative). -/
def epochDays (y m d : Nat) : Int := (daysFromCivilNat y m d : Int) - 719468

/-- `YYYY-MM-DD` date prefix parser: year, month, day and remaining input. -/
def parseDate (cs : List Char) : Option (Nat × Nat × Nat × List Char) :=
  (readDigits 4 0 cs).bind fun (y, cs1) =>
  (expectChar '-' cs1).bind fun cs2 =>
  (readDigits 2 0 cs2).bind fun (m, cs3) =>
  (expectChar '-' cs3).bind fun cs4 =>
  (readDigits 2 0 cs4).map fun (d, cs5) => (y, m, d, cs5)

/-- UTC-offset suffix parser (`±HH:MM`, `±HH:MM:SS` or `±HH:MM:SS.ffffff`,
sub-second digits ignored in this whole-second model); `some none` when the
input is empty (no offset), `none` on a malformed suffix. -/
def parseTzOpt (cs : List Char) : Option (Option Int) :=
  match cs with
  | [] => some none
  | c :: cs1 =>
    if c = '+' ∨ c = '-' then
      (readDigits 2 0 cs1).bind fun (oh, cs2) =>
      (expectChar ':' cs2).bind fun cs3 =>
      (readDigits 2 0 cs3).bind fun (om, cs4) =>
      let mk : Nat → Option (Option Int) := fun os =>
        let off : Int := (oh * 3600 + om * 60 + os : Nat)
        let off := if c = '-' then -off else off
        if -86400 < off ∧ off < 86400 then some (some off) else none
      match cs4 with
      | [] => mk 0
      | ':' :: cs5 =>
        (readDigits 2 0 cs5).bind fun (os, cs6) =>
        match cs6 with
        | [] => mk os
        | '.' :: cs7 =>
          if cs7.length = 6 ∧ cs7.all Char.isDigit then mk os else none
        | _ => none
      | _ => none
    else none

/-- Time-of-day (with optional fraction, ignored at whole-second precision)
followed by an optional UTC offset: `HH[:MM[:SS[.fff|.ffffff]]][±HH:MM[:SS]]`. -/
def parseTimeAndTz (cs : List Char) : Option (Nat × Nat × Nat × Option Int) :=
  (readDigits 2 0 cs).bind fun (hh, cs1) =>
  match cs1 with
  | ':' :: cs2 =>
    (readDigits 2 0 cs2).bind fun (mm, cs3) =>
    match cs3 with
    | ':' :: cs4 =>
      (readDigits 2 0 cs4).bind fun (ss, cs5) =>
      match cs5 with
      | '.' :: cs6 =>
        let ds := cs6.takeWhile Char.isDigit
        if ds.length = 3 ∨ ds.length = 6 then
          (parseTzOpt (cs6.drop ds.length)).map fun off => (hh, mm, ss, off)
        else none
      | _ => (parseTzOpt cs5).map fun off => (hh, mm, ss, off)
    | _ => (parseTzOpt cs3).map fun off => (hh, mm, 0, off)
  | _ => (parseTzOpt cs1).map fun off => (hh, 0, 0, off)

/-- Model of `datetime.fromisoformat(s).timestamp()` (CPython ≤ 3.10 grammar,
whole-second precision): accepts `YYYY-MM-DD` followed optionally by one
separator character, a time of day and a UTC offset, validating calendar and
clock ranges. Returns `none` on a parse failure and also on a naive datetime
(no offset), whose `timestamp()` would depend on the local time zone; at this
model's single call site the guard `'T' ∈ s ∧ ('Z' ∈ s ∨ '+' ∈ s)` makes a
successfully parsed naive datetime unreachable. -/
def fromisoformat_ts (s : String) : Option Int :=
  (parseDate s.data).bind fun (y, m, d, rest) =>
  if 1 ≤ y ∧ y ≤ 9999 ∧ 1 ≤ m ∧ m ≤ 12 ∧ 1 ≤ d ∧ d ≤ daysInMonth y m then
    match rest with
    | [] => none
    | _sep :: rest1 =>
      (parseTimeAndTz rest1).bind fun (hh, mm, ss, off) =>
      if hh ≤ 23 ∧ mm ≤ 59 ∧ ss ≤ 59 then
        match off with
        | none => none
        | some off =>
          some (epochDays y m d * 86400 + (hh * 3600 + mm * 60 + ss : Nat) - off)
      else none
  else none

/-- Embedding of `parse_tweet_time_to_timestamp(time_str)` from
`twitter_crawler.py` (lines 198-238), with the function's single
`time.time()` read made the explicit argument `now`. Mirrors the source:
empty input yields the sentinel `0`; a string containing `'T'` and (`'Z'` or
`'+'`) is tried as an ISO timestamp after replacing every `'Z'` with
`"+00:00"`, falling through on failure; otherwise the relative-time branch
always produces the sentinel `0` — its number extraction uses the raw regex
pattern of an escaped backslash followed by `d+` (line 216), so when a
match exists it is a literal backslash followed by `d`s and `int()` on it
raises `ValueError`, turned into `0` by the enclosing `try`, and when no
match exists the branch falls through to `return 0`. `now` is therefore
never used in the result; it is kept because the source reads the clock. -/
def parse_tweet_time_to_timestamp (time_str : String) (_now : Int) : Int :=
  if time_str = "" then 0
  else
    let isoResult :=
      if charIn 'T' time_str ∧ (charIn 'Z' time_str ∨ charIn '+' time_str)
      then fromisoformat_ts (pyReplace time_str 'Z' "+00:00")
      else none
    match isoResult with
    | some ts => ts
    | none =>
      let lower := strLower time_str
      if charIn 's' lower ∨ charIn 'm' lower ∨ charIn 'h' lower ∨
          charIn 'd' lower ∨ charIn 'w' lower then
        if hasBackslashD time_str.data then
          0 -- int() on the match raises ValueError; the except returns 0
        else
          0 -- `numbers` is empty; the branch falls through to `return 0`
      else 0

/-- The `time` element found inside a raw tweet, when present: its `datetime`
attribute (`""` models a missing attribute, which Python's `or` treats exactly
like the empty string) and its visible text. -/
structure TimeElem where
  datetime : String
  text : String
deriving DecidableEq, Repr

/-- Read-only probe results of one rendered feed entry, as queried by
`extract_tweet_data`: the three pinned indicators, the `tweetText` element's
text, the whole element's text, the `time` element, the `aria-label`s and the
first `href` of the `/status/` links, the `User-Name` element's text, and the
texts of the `[role="group"] span` elements. `none` models a selector miss
(Python `find_element` raising). -/
structure RawItem where
  innerHTML : String
  socialContext : Bool
  ariaPinned : Bool
  svgPinned : Bool
  tweetText : Option String
  fullText : String
  timeElem : Option TimeElem
  statusAriaLabels : List String
  statusHref : Option String
  userName : Option String
  groupSpans : List String
deriving DecidableEq, Repr

/-- The extracted tweet dictionary of `extract_tweet_data`. The keys
`is_pinned` and `timestamp` are absent from the initial Python dict and only
sometimes inserted; they are modelled with the defaults the source reads back
(`.get('is_pinned', False)`, resp. unused `""`). -/
structure Record where
  index : Nat
  text : String
  time : String
  date : String
  author : String
  url : String
  engagement : List (String × String)
  timestamp : String
  is_pinned : Bool
deriving DecidableEq, Repr

/-- Backup time strategy of `extract_tweet_data`: the first `/status/` link
`aria-label` that is non-empty and whose lowercase form contains `"ago"`,
`h`, `m` or `d`; `""` when none matches. -/
def backupTime (labels : List String) : String :=
  (labels.find? fun a =>
    a ≠ "" ∧ (strContains (strLower a) "ago" ∨ charIn 'h' (strLower a) ∨
      charIn 'm' (strLower a) ∨ charIn 'd' (strLower a))).getD ""

/-- Embedding of `extract_tweet_data(tweet_element, index)` from
`twitter_crawler.py` (lines 106-195). Every selector miss is a soft failure:
pinned status is the disjunction of three indicator probes (default false);
text falls back from the `tweetText` element (stripped, kept even when empty)
to index 2 of the element text split on the literal two-character sequence
backslash-`n` (the source's separator on line 146 is the escaped string, not
a newline, so newline-separated text yields one piece and the `IndexError`
leaves the field empty); the `time` element provides
`date`/`time`/`timestamp`, else the aria-label backup fills `time`; author and
url each have one strategy; engagement is filled only when at least three
group spans exist. -/
def extract_tweet_data (e : RawItem) (index : Nat) : Record :=
  let is_pinned := e.socialContext || e.ariaPinned || e.svgPinned
  let text :=
    match e.tweetText with
    | some t => pyStrip t
    | none => ((pySplitTwo e.fullText '\\' 'n').get? 2).getD ""
  let dtt :=
    match e.timeElem with
    | some te => (te.datetime, te.text, te.datetime)
    | none => ("", backupTime e.statusAriaLabels, "")
  let author := (e.userName.map pyStrip).getD ""
  let url := e.statusHref.getD ""
  let engagement :=
    match e.groupSpans with
    | r :: rt :: l :: _ => [("replies", r), ("retweets", rt), ("likes", l)]
    | _ => []
  { index := index, text := text, time := dtt.2.1, date := dtt.1,
    author := author, url := url, engagement := engagement,
    timestamp := dtt.2.2, is_pinned := is_pinned }

/-- The time string the collection loop resolves for a record:
`tweet_data.get('date') or tweet_data.get('time', '')`. -/
def timeStrOf (td : Record) : String := if td.date ≠ "" then td.date else td.time

/-- Collection parameters: `max_tweets` and `days_back` of
`scroll_and_collect_tweets`, the session's wall-clock instant `now` (the
source's `time.time()` reads) and `cutoff`, the value of
`cutoff_date.timestamp()` (only consulted when `days_back > 0`). -/
structure Config where
  max_tweets : Nat
  days_back : Nat
  now : Int
  cutoff : Int
deriving DecidableEq, Repr

/-- The loop-owned session state: accepted records, fingerprints of processed
items, the stagnation counter, the scroll counter, and the running oldest
resolved instant (initialised to `now`). -/
structure SessionState where
  tweets_data : List Record
  processed : List Int
  no_new_tweets_count : Nat
  scroll_attempts : Nat
  oldest : Int
deriving DecidableEq, Repr

/-- Outcome of processing one candidate element: continue with the new state
(and whether the fingerprint was new), or return the accepted list at once
(the source's early `return tweets_data`). -/
inductive CandidateResult where
  | cont (s : SessionState) (isNew : Bool)
  | finished (tweets : List Record)
deriving DecidableEq, Repr

/-- Per-candidate body of the `for tweet_elem in tweet_elements` loop of
`scroll_and_collect_tweets` (lines 265-323): fingerprint check-and-insert,
extraction, and the window cutoff policy. -/
def processCandidate (hashFn : String → Int) (cfg : Config)
    (s : SessionState) (item : RawItem) : CandidateResult :=
  let tweet_id := hashFn item.innerHTML
  if tweet_id ∈ s.processed then .cont s false
  else
    let s := { s with processed := tweet_id :: s.processed }
    let td := extract_tweet_data item (s.tweets_data.length + 1)
    let tweet_time_str := timeStrOf td
    if cfg.days_back > 0 ∧ td.is_pinned = false then
      if tweet_time_str ≠ "" then
        let ts := parse_tweet_time_to_timestamp tweet_time_str cfg.now
        if ts > 0 then
          let s := { s with oldest := min s.oldest ts }
          if ts < cfg.cutoff then
            if s.tweets_data.length ≥ 10 then .finished s.tweets_data
            else .cont s true
          else .cont { s with tweets_data := s.tweets_data ++ [td] } true
        else
          if s.tweets_data.length < 5 then
            .cont { s with tweets_data := s.tweets_data ++ [td] } true
          else .cont s true
      else
        if s.tweets_data.length < 5 then
          .cont { s with tweets_data := s.tweets_data ++ [td] } true
        else .cont s true
    else .cont { s with tweets_data := s.tweets_data ++ [td] } true

/-- Outcome of one whole round: continue with the state and the round's
`new_tweets_found` flag, or the early return. -/
inductive RoundResult where
  | cont (s : SessionState) (newFound : Bool)
  | finished (tweets : List Record)
deriving DecidableEq, Repr

/-- Process the visible elements of one round in order, threading the
`new_tweets_found` flag and propagating an early return. -/
def processItems (hashFn : String → Int) (cfg : Config) :
    SessionState → Bool → List RawItem → RoundResult
  | s, newFound, [] => .cont s newFound
  | s, newFound, it :: rest =>
    match processCandidate hashFn cfg s it with
    | .finished tw => .finished tw
    | .cont s' isNew => processItems hashFn cfg s' (newFound || isNew) rest

/-- How a collection session ended. Each constructor tags one textual exit of
the source loop: the two `while`-guard exits (item count, scroll count), the
`no_new_tweets_count >= 5` break, and the early `return` on an old tweet after
ten accepted ones; the bottom `scroll_attempts` break is a round-limit exit. -/
inductive Reason where
  | itemLimit | roundLimit | stagnation | windowSatisfied
deriving DecidableEq, Repr

/-- The `while` loop of `scroll_and_collect_tweets` (lines 259-352), with the
feed's visible elements at each scroll position given by `feed` and an
explicit fuel argument (the guard `scroll_attempts < 3000` bounds the number
of iterations, so fuel `3000` from the initial state is never exhausted). -/
def collectLoop (hashFn : String → Int) (cfg : Config)
    (feed : Nat → List RawItem) : Nat → SessionState → List Record × Reason
  | 0, s => (s.tweets_data, .roundLimit)
  | fuel + 1, s =>
    if s.tweets_data.length ≥ cfg.max_tweets then (s.tweets_data, .itemLimit)
    else if s.scroll_attempts ≥ 3000 then (s.tweets_data, .roundLimit)
    else
      match processItems hashFn cfg s false (feed s.scroll_attempts) with
      | .finished tw => (tw, .windowSatisfied)
      | .cont s' newFound =>
        if newFound = false then
          if s'.no_new_tweets_count + 1 ≥ 5 then (s'.tweets_data, .stagnation)
          else
            let s2 := { s' with
              no_new_tweets_count := s'.no_new_tweets_count + 1,
              scroll_attempts := s'.scroll_attempts + 1 }
            if s2.scroll_attempts ≥ 5000 ∨
                (s2.scroll_attempts ≥ 3000 ∧ s2.tweets_data.length < 5) then
              (s2.tweets_data, .roundLimit)
            else collectLoop hashFn cfg feed fuel s2
        else
          let s2 := { s' with
            no_new_tweets_count := 0,
            scroll_attempts := s'.scroll_attempts + 1 }
          if s2.scroll_attempts ≥ 5000 ∨
              (s2.scroll_attempts ≥ 3000 ∧ s2.tweets_data.length < 5) then
            (s2.tweets_data, .roundLimit)
          else collectLoop hashFn cfg feed fuel s2

/-- Initial session state: empty accepted list and fingerprint set, zero
counters, `oldest_tweet_timestamp = time.time()`. -/
def initState (cfg : Config) : SessionState :=
  { tweets_data := [], processed := [], no_new_tweets_count := 0,
    scroll_attempts := 0, oldest := cfg.now }

/-- Embedding of `scroll_and_collect_tweets`, paired with the reason tag of
the exit the run took. -/
def scroll_and_collect_tweets (hashFn : String → Int) (cfg : Config)
    (feed : Nat → List RawItem) : List Record × Reason :=
  collectLoop hashFn cfg feed 3000 (initState cfg)

/-- Reference definition of the spec's timestamp normalizer rule 2 trigger,
following the spec's words: the (lowercased) string contains an integer
immediately followed by a unit token among `s`, `m`, `h`, `d`, `w`. -/
def specIntThenUnit : List Char → Bool
  | c :: d :: rest =>
    (c.isDigit && (d = 's' ∨ d = 'm' ∨ d = 'h' ∨ d = 'd' ∨ d = 'w')) ||
      specIntThenUnit (d :: rest)
  | _ => false

/-- Reference definition of `resolve(rawTime, now)` following the spec's
words (rules evaluated in order, first match wins): (1) a string that parses
as an ISO-8601 timestamp with an explicit offset or `Z` suffix yields that
instant; (2) else a string containing an integer followed by a unit token
yields `now - n * unitSeconds`, `n` the first integer, with unit precedence
`s`→1, `m`→60 (rejected when `"month"` occurs), `h`→3600, `d`→86400,
`w`→604800, first match wins; (3) else absent. -/
def specResolve (s : String) (now : Int) : Option Int :=
  match fromisoformat_ts (pyReplace s 'Z' "+00:00") with
  | some t => some t
  | none =>
    if specIntThenUnit (strLower s).data then
      match specFirstInt s with
      | some n =>
        let lower := strLower s
        let unitSeconds : Option Int :=
          if charIn 's' lower then some 1
          else if charIn 'm' lower ∧ ¬ strContains lower "month" = true then
            some 60
          else if charIn 'h' lower then some 3600
          else if charIn 'd' lower then some 86400
          else if charIn 'w' lower then some 604800
          else none
        unitSeconds.map fun u => now - (n : Int) * u
      | none => none
    else none

/-- The behaviour `parse_tweet_time_to_timestamp` actually implements, as an
optional instant (`none` is what the code's sentinel `0` stands for): only
the ISO rule can produce an instant, and it fires only when the string
contains `'T'` and (`'Z'` or `'+'`); every other input — in particular
every relative form such as `"6h"` — is absent, because the source's
number-extraction regex never matches a digit run and `int()` raises on
any match it does find. -/
def amendedResolve (s : String) (_now : Int) : Option Int :=
  if s = "" then none
  else
    let isoResult :=
      if charIn 'T' s ∧ (charIn 'Z' s ∨ charIn '+' s)
      then fromisoformat_ts (pyReplace s 'Z' "+00:00")
      else none
    match isoResult with
    | some ts => some ts
    | none => none

/-- First strategy value that is present and non-empty, else the zero value:
the spec's claimed per-field resolution policy. -/
def specFirstNonEmpty : List (Option String) → String
  | [] => ""
  | some v :: rest => if v ≠ "" then v else specFirstNonEmpty rest
  | none :: rest => specFirstNonEmpty rest

/-- The ordered strategy values for the `text` field of a raw item: the
stripped `tweetText` element text, then index 2 of the element text split on
the literal two-character sequence backslash-`n` (the source's separator). -/
def textStrategies (e : RawItem) : List (Option String) :=
  [e.tweetText.map pyStrip, (pySplitTwo e.fullText '\\' 'n').get? 2]

/-- A raw item whose `tweetText` element exists but has empty text while the
backup strategy would yield a non-empty value: its element text contains two
literal backslash-`n` sequences, which is exactly what the source's backup
split separates on. -/
def rawC8 : RawItem :=
  { innerHTML := "x", socialContext := false, ariaPinned := false,
    svgPinned := false, tweetText := some "", fullText := "a\\nb\\nc",
    timeElem := none, statusAriaLabels := [], statusHref := none,
    userName := none, groupSpans := [] }

/-- A concrete fingerprint function for the closed scenarios: any
deterministic `String → Int` map models Python's `hash`; this one is
injective on the scenario items, whose markups have pairwise distinct
lengths. -/
def hashLen (s : String) : Int := (s.length : Int)

/-- A markup string of length `n`. -/
def mkHtml (n : Nat) : String := String.mk (List.replicate n 'a')

/-- A raw item with every probe missing. -/
def blankItem : RawItem :=
  { innerHTML := "", socialContext := false, ariaPinned := false,
    svgPinned := false, tweetText := none, fullText := "", timeElem := none,
    statusAriaLabels := [], statusHref := none, userName := none,
    groupSpans := [] }

/-- Two-digit decimal rendering of a day-of-month. -/
def twoDigits (n : Nat) : String :=
  if n < 10 then "0" ++ toString n else toString n

/-- The `time` element `datetime` attribute of the `k`-th window-scenario
item: the UTC instant `12k` hours before 2024-01-20T00:00:00Z. -/
def isoAt (k : Nat) : String :=
  "2024-01-" ++ twoDigits (20 - (k + 1) / 2) ++
    (if k % 2 = 1 then "T12:00:00Z" else "T00:00:00Z")

/-- Bounded-mode configuration for the window scenario: `days_back = 7`,
`now` = 2024-01-20T00:00:00Z = 1705708800, `cutoff = now - 7·86400`. -/
def cfgC2 : Config :=
  { max_tweets := 3000, days_back := 7, now := 1705708800,
    cutoff := 1705104000 }

/-- The pinned item of the window scenario: pinned indicator present, with an
absolute timestamp seven weeks before the cutoff. -/
def pinnedC2 : RawItem :=
  { blankItem with
    innerHTML := mkHtml 1
    socialContext := true
    timeElem := some { datetime := "2023-12-01T00:00:00Z", text := "" } }

/-- The `k`-th timed item of the window scenario, `k` ranging over `0..19`:
absolute timestamp `12k` hours before `now`, so the twenty items span ten
days; items `0..14` resolve at or after the cutoff, items `15..19` before
it. -/
def itemC2 (k : Nat) : RawItem :=
  { blankItem with
    innerHTML := mkHtml (k + 2)
    timeElem := some { datetime := isoAt k, text := "" } }

/-- The window-scenario feed: the pinned item followed by the twenty timed
items, at every scroll position. -/
def feedC2 (_ : Nat) : List RawItem := pinnedC2 :: (List.range 20).map itemC2

/-- Expected acceptance for the window scenario: the pinned item plus the
fifteen in-window items, in feed order. -/
def expectedC2 : List Record :=
  extract_tweet_data pinnedC2 1 ::
    (List.range 15).map fun k => extract_tweet_data (itemC2 k) (k + 2)

/-- The `k`-th unresolvable-time item of the bootstrap scenario: no time
probe succeeds at all. -/
def itemC3 (k : Nat) : RawItem := { blankItem with innerHTML := mkHtml (k + 1) }

/-- The bootstrap-scenario feed: six unresolvable-time items at every scroll
position. -/
def feedC3 (_ : Nat) : List RawItem := (List.range 6).map itemC3

/-- Expected acceptance for the bootstrap scenario: the first five items. -/
def expectedC3 : List Record :=
  (List.range 5).map fun k => extract_tweet_data (itemC3 k) (k + 1)

/-- Bounded-mode configuration for the bootstrap scenario. -/
def cfgC3 : Config :=
  { max_tweets := 3000, days_back := 7, now := 1000000000,
    cutoff := 999395200 }

/-- An item with a non-empty but unresolvable visible time. -/
def itemC10 : RawItem :=
  { blankItem with
    innerHTML := mkHtml 1
    timeElem := some { datetime := "", text := "???" } }

/-- The accepted list carries the sequence indices `1, 2, ..., n` in order:
the record at position `i` has `index = i + 1`. -/
def seqOk (l : List Record) : Prop :=
  l.map (fun r => r.index) = (List.range l.length).map (fun i => i + 1)

/-- Bridge lemma: the source's sentinel-valued time parser equals its
optional-instant description, with `0` standing for the absent result. -/
lemma parse_eq_amendedResolve (s : String) (now : Int) :
    parse_tweet_time_to_timestamp s now = (amendedResolve s now).getD 0 := by
  simp only [parse_tweet_time_to_timestamp, amendedResolve]
  split
  · rfl
  · split
    · rfl
    · split
      · split
        · rfl
        · rfl
      · rfl

/-- C1, counterexample: the claimed reference definition resolves `"6h"` at
`now = 1000000`, by its rule 2, to `now - 21600 = 978400`; the program
returns the absent sentinel `0` — its number-extraction regex (raw pattern:
escaped backslash followed by `d+`) never matches digits, so the relative
branch can never produce an instant. A second discrepancy: the reference's
rule 1 resolves the negative-offset ISO timestamp
`"2024-01-01T00:00:00-05:00"` to `1704085200`, while the code's ISO branch
requires a `'Z'` or `'+'` character and returns `0`. -/
theorem claim_C1_counterexample :
    specResolve "6h" 1000000 = some 978400 ∧
    parse_tweet_time_to_timestamp "6h" 1000000 = 0 ∧
    specResolve "2024-01-01T00:00:00-05:00" 1700000000 = some 1704085200 ∧
    parse_tweet_time_to_timestamp "2024-01-01T00:00:00-05:00" 1700000000
      = 0 ∧
    (978400 : Int) ≠ 0 := by
  refine ⟨by decide, by decide, by decide, by decide, by decide⟩

/-- C1, amended: `parse_tweet_time_to_timestamp` returns an instant only via
the ISO rule, which fires only when the string contains `'T'` and a `'Z'` or
`'+'` character; every other input is absent (sentinel `0`), because the
relative branch's number extraction uses the raw regex of an escaped
backslash followed by `d+` — it never matches a digit run, and `int()` on
any match it does find raises, caught to return `0`. In particular
`resolve("6h", now)`, `resolve("2d", now)` and `resolve("3w", now)` are all
the absent sentinel `0`, for every `now`. -/
theorem claim_C1 :
    (∀ (s : String) (now : Int),
        parse_tweet_time_to_timestamp s now = (amendedResolve s now).getD 0) ∧
    (∀ now : Int, parse_tweet_time_to_timestamp "6h" now = 0) ∧
    (∀ now : Int, parse_tweet_time_to_timestamp "2d" now = 0) ∧
    (∀ now : Int, parse_tweet_time_to_timestamp "3w" now = 0) :=
  ⟨parse_eq_amendedResolve, fun _ => rfl, fun _ => rfl, fun _ => rfl⟩

/-- C9: the timestamp normalizer is pure and deterministic — its result is a
function of exactly the raw time string and the `now` instant (the source's
single `time.time()` read, made explicit in the embedding): two evaluations
at the same arguments agree. -/
theorem claim_C9 :
    ∀ (rawTime : String) (now now' : Int), now = now' →
      parse_tweet_time_to_timestamp rawTime now =
        parse_tweet_time_to_timestamp rawTime now' := by
  intro rawTime now now' h
  rw [h]

/-- C9 witness at a concrete input. -/
theorem claim_C9_witness :
    parse_tweet_time_to_timestamp "6h" 100 =
      parse_tweet_time_to_timestamp "6h" 100 :=
  claim_C9 "6h" 100 100 rfl

/-- An already-seen fingerprint makes candidate processing a no-op. -/
lemma processCandidate_seen (hashFn : String → Int) (cfg : Config)
    (s : SessionState) (it : RawItem)
    (h : hashFn it.innerHTML ∈ s.processed) :
    processCandidate hashFn cfg s it = CandidateResult.cont s false := by
  simp [processCandidate, h]

/-- A fresh pinned candidate is always appended, in any mode, and never ends
the session. -/
lemma processCandidate_pinned_fresh (hashFn : String → Int) (cfg : Config)
    (s : SessionState) (it : RawItem)
    (hfp : hashFn it.innerHTML ∉ s.processed)
    (hpin : (extract_tweet_data it (s.tweets_data.length + 1)).is_pinned = true) :
    processCandidate hashFn cfg s it =
      CandidateResult.cont
        { s with processed := hashFn it.innerHTML :: s.processed,
                 tweets_data := s.tweets_data ++
                   [extract_tweet_data it (s.tweets_data.length + 1)] } true := by
  simp [processCandidate, hfp, hpin]

/-- Bounded mode, fresh non-pinned candidate with unresolvable time (empty
time string or non-positive resolved value): bootstrap leniency, appended
exactly when fewer than five records are accepted, `oldest` untouched. -/
lemma processCandidate_bootstrap (hashFn : String → Int) (cfg : Config)
    (s : SessionState) (it : RawItem) (td : Record)
    (htd : td = extract_tweet_data it (s.tweets_data.length + 1))
    (hfp : hashFn it.innerHTML ∉ s.processed)
    (hdb : 0 < cfg.days_back)
    (hpin : td.is_pinned = false)
    (hun : timeStrOf td = "" ∨
      parse_tweet_time_to_timestamp (timeStrOf td) cfg.now ≤ 0) :
    processCandidate hashFn cfg s it =
      CandidateResult.cont
        { s with processed := hashFn it.innerHTML :: s.processed,
                 tweets_data :=
                   if s.tweets_data.length < 5 then s.tweets_data ++ [td]
                   else s.tweets_data } true := by
  subst htd
  by_cases hne :
      timeStrOf (extract_tweet_data it (s.tweets_data.length + 1)) = ""
  · by_cases h5 : s.tweets_data.length < 5 <;>
      simp [processCandidate, hfp, hdb, hpin, hne, h5]
  · have hts := Or.resolve_left hun hne
    have hng := not_lt.mpr hts
    by_cases h5 : s.tweets_data.length < 5 <;>
      simp [processCandidate, hfp, hdb, hpin, hne, hng, h5]

/-- Bounded mode, fresh non-pinned candidate with a positively resolved
time: `oldest` is updated and the cutoff comparison decides between
rejection (with the early return once ten records are accepted) and
acceptance. -/
lemma processCandidate_resolved (hashFn : String → Int) (cfg : Config)
    (s : SessionState) (it : RawItem) (td : Record) (ts : Int)
    (htd : td = extract_tweet_data it (s.tweets_data.length + 1))
    (hts : ts = parse_tweet_time_to_timestamp (timeStrOf td) cfg.now)
    (hfp : hashFn it.innerHTML ∉ s.processed)
    (hdb : 0 < cfg.days_back)
    (hpin : td.is_pinned = false)
    (hne : timeStrOf td ≠ "")
    (hpos : 0 < ts) :
    processCandidate hashFn cfg s it =
      (if ts < cfg.cutoff then
        (if 10 ≤ s.tweets_data.length then
          CandidateResult.finished s.tweets_data
        else
          CandidateResult.cont
            { s with processed := hashFn it.innerHTML :: s.processed,
                     oldest := min s.oldest ts } true)
      else
        CandidateResult.cont
          { s with processed := hashFn it.innerHTML :: s.processed,
                   oldest := min s.oldest ts,
                   tweets_data := s.tweets_data ++ [td] } true) := by
  subst htd
  subst hts
  by_cases hc :
      parse_tweet_time_to_timestamp
        (timeStrOf (extract_tweet_data it (s.tweets_data.length + 1)))
        cfg.now < cfg.cutoff
  · by_cases h10 : 10 ≤ s.tweets_data.length <;>
      simp [processCandidate, hfp, hdb, hpin, hne, hpos, hc, h10]
  · simp [processCandidate, hfp, hdb, hpin, hne, hpos, hc]

/-- C2: in bounded mode, a fresh non-pinned candidate with a resolved time
earlier than the cutoff is rejected — with the early `WINDOW_SATISFIED`
return exactly when ten or more records are already accepted — and one with
a resolved time at or after the cutoff is accepted and appended; on the
window scenario feed (a pinned item plus twenty items spanning ten days,
`days_back = 7`) the run accepts exactly the pinned item and the fifteen
in-window items. -/
theorem claim_C2 :
    (∀ (hashFn : String → Int) (cfg : Config) (s : SessionState)
        (it : RawItem) (td : Record) (ts : Int),
      td = extract_tweet_data it (s.tweets_data.length + 1) →
      ts = parse_tweet_time_to_timestamp (timeStrOf td) cfg.now →
      hashFn it.innerHTML ∉ s.processed →
      0 < cfg.days_back →
      td.is_pinned = false →
      timeStrOf td ≠ "" →
      0 < ts →
      ((ts < cfg.cutoff →
        (10 ≤ s.tweets_data.length →
          processCandidate hashFn cfg s it =
            CandidateResult.finished s.tweets_data) ∧
        (s.tweets_data.length < 10 →
          processCandidate hashFn cfg s it =
            CandidateResult.cont
              { s with processed := hashFn it.innerHTML :: s.processed,
                       oldest := min s.oldest ts } true)) ∧
      (cfg.cutoff ≤ ts →
        processCandidate hashFn cfg s it =
          CandidateResult.cont
            { s with processed := hashFn it.innerHTML :: s.processed,
                     oldest := min s.oldest ts,
                     tweets_data := s.tweets_data ++ [td] } true))) ∧
    scroll_and_collect_tweets hashLen cfgC2 feedC2 =
      (expectedC2, Reason.windowSatisfied) := by
  constructor
  · intro hashFn cfg s it td ts htd hts hfp hdb hpin hne hpos
    have hmain := processCandidate_resolved hashFn cfg s it td ts htd hts
      hfp hdb hpin hne hpos
    constructor
    · intro hc
      constructor
      · intro h10
        rw [hmain, if_pos hc, if_pos h10]
      · intro h10
        rw [hmain, if_pos hc, if_neg (not_le.mpr h10)]
    · intro hge
      rw [hmain, if_neg (not_lt.mpr hge)]
  · decide

/-- C2 witness: the first in-window item of the window scenario is accepted
from the initial state. -/
theorem claim_C2_witness :
    processCandidate hashLen cfgC2 (initState cfgC2) (itemC2 0) =
      CandidateResult.cont
        { tweets_data := [extract_tweet_data (itemC2 0) 1], processed := [2],
          no_new_tweets_count := 0, scroll_attempts := 0,
          oldest := 1705708800 } true := by
  have h := (claim_C2.1 hashLen cfgC2 (initState cfgC2) (itemC2 0)
    (extract_tweet_data (itemC2 0) 1) 1705708800 rfl (by decide) (by decide)
    (by decide) (by decide) (by decide) (by decide)).2 (by decide)
  exact h.trans (by decide)

/-- C3: in bounded mode, a fresh non-pinned candidate whose time cannot be
resolved is accepted exactly when fewer than five records are accepted so
far; on the bootstrap scenario feed of six unresolvable-time items the run
accepts exactly the first five. -/
theorem claim_C3 :
    (∀ (hashFn : String → Int) (cfg : Config) (s : SessionState)
        (it : RawItem) (td : Record),
      td = extract_tweet_data it (s.tweets_data.length + 1) →
      hashFn it.innerHTML ∉ s.processed →
      0 < cfg.days_back →
      td.is_pinned = false →
      (timeStrOf td = "" ∨
        parse_tweet_time_to_timestamp (timeStrOf td) cfg.now ≤ 0) →
      ((s.tweets_data.length < 5 →
        processCandidate hashFn cfg s it =
          CandidateResult.cont
            { s with processed := hashFn it.innerHTML :: s.processed,
                     tweets_data := s.tweets_data ++ [td] } true) ∧
      (5 ≤ s.tweets_data.length →
        processCandidate hashFn cfg s it =
          CandidateResult.cont
            { s with processed := hashFn it.innerHTML :: s.processed }
            true))) ∧
    scroll_and_collect_tweets hashLen cfgC3 feedC3 =
      (expectedC3, Reason.stagnation) := by
  constructor
  · intro hashFn cfg s it td htd hfp hdb hpin hun
    have hmain := processCandidate_bootstrap hashFn cfg s it td htd hfp hdb
      hpin hun
    constructor
    · intro h5
      rw [hmain, if_pos h5]
    · intro h5
      rw [hmain, if_neg (not_lt.mpr h5)]
  · decide

/-- C3 witness: the first bootstrap-scenario item is accepted from the
initial state. -/
theorem claim_C3_witness :
    processCandidate hashLen cfgC3 (initState cfgC3) (itemC3 0) =
      CandidateResult.cont
        { tweets_data := [extract_tweet_data (itemC3 0) 1], processed := [1],
          no_new_tweets_count := 0, scroll_attempts := 0,
          oldest := 1000000000 } true := by
  have h := (claim_C3.1 hashLen cfgC3 (initState cfgC3) (itemC3 0)
    (extract_tweet_data (itemC3 0) 1) rfl (by decide) (by decide) (by decide)
    (Or.inl (by decide))).1 (by decide)
  exact h.trans (by decide)

/-- C4: a pinned candidate bypasses the time-window cutoff — when its
fingerprint is fresh it is accepted and appended whatever its resolved time,
the cutoff instant or the mode, and it never triggers the early return —
but it remains subject to deduplication: with an already-seen fingerprint
it is not appended again. -/
theorem claim_C4 :
    ∀ (hashFn : String → Int) (cfg : Config) (s : SessionState)
      (it : RawItem) (td : Record),
      td = extract_tweet_data it (s.tweets_data.length + 1) →
      td.is_pinned = true →
      ((hashFn it.innerHTML ∈ s.processed →
        processCandidate hashFn cfg s it = CandidateResult.cont s false) ∧
      (hashFn it.innerHTML ∉ s.processed →
        processCandidate hashFn cfg s it =
          CandidateResult.cont
            { s with processed := hashFn it.innerHTML :: s.processed,
                     tweets_data := s.tweets_data ++ [td] } true)) := by
  intro hashFn cfg s it td htd hpin
  subst htd
  exact ⟨fun h => processCandidate_seen hashFn cfg s it h,
    fun h => processCandidate_pinned_fresh hashFn cfg s it h hpin⟩

/-- C4 witness: the pinned scenario item, whose visible time is far older
than the cutoff, is nevertheless accepted from the initial state. -/
theorem claim_C4_witness :
    processCandidate hashLen cfgC2 (initState cfgC2) pinnedC2 =
      CandidateResult.cont
        { tweets_data := [extract_tweet_data pinnedC2 1], processed := [1],
          no_new_tweets_count := 0, scroll_attempts := 0,
          oldest := 1705708800 } true := by
  have h := (claim_C4 hashLen cfgC2 (initState cfgC2) pinnedC2
    (extract_tweet_data pinnedC2 1) rfl (by decide)).2 (by decide)
  exact h.trans (by decide)

/-- C10: the absent result of time resolution is the sentinel `0` (empty
input yields `0`, and whenever the optional-instant description is absent
the parser yields `0`); in the loop a fresh non-pinned bounded-mode
candidate with a non-empty time string is handled by the bootstrap rule —
accepted exactly when fewer than five records are accepted, with `oldest`
untouched — precisely when its resolved value is `≤ 0`, while a positive
resolved value is compared against the cutoff (here: the accepting case,
which updates `oldest`); a pre-epoch ISO timestamp resolves below zero and
a relative-offset string resolves to the absent sentinel `0`, both `≤ 0`. -/
theorem claim_C10 :
    (∀ now : Int, parse_tweet_time_to_timestamp "" now = 0) ∧
    (∀ (s : String) (now : Int), amendedResolve s now = none →
      parse_tweet_time_to_timestamp s now = 0) ∧
    (∀ (hashFn : String → Int) (cfg : Config) (s : SessionState)
        (it : RawItem) (td : Record),
      td = extract_tweet_data it (s.tweets_data.length + 1) →
      hashFn it.innerHTML ∉ s.processed →
      0 < cfg.days_back →
      td.is_pinned = false →
      timeStrOf td ≠ "" →
      parse_tweet_time_to_timestamp (timeStrOf td) cfg.now ≤ 0 →
      processCandidate hashFn cfg s it =
        CandidateResult.cont
          { s with processed := hashFn it.innerHTML :: s.processed,
                   tweets_data :=
                     if s.tweets_data.length < 5 then s.tweets_data ++ [td]
                     else s.tweets_data } true) ∧
    (∀ (hashFn : String → Int) (cfg : Config) (s : SessionState)
        (it : RawItem) (td : Record),
      td = extract_tweet_data it (s.tweets_data.length + 1) →
      hashFn it.innerHTML ∉ s.processed →
      0 < cfg.days_back →
      td.is_pinned = false →
      timeStrOf td ≠ "" →
      0 < parse_tweet_time_to_timestamp (timeStrOf td) cfg.now →
      cfg.cutoff ≤ parse_tweet_time_to_timestamp (timeStrOf td) cfg.now →
      processCandidate hashFn cfg s it =
        CandidateResult.cont
          { s with processed := hashFn it.innerHTML :: s.processed,
                   oldest := min s.oldest
                     (parse_tweet_time_to_timestamp (timeStrOf td) cfg.now),
                   tweets_data := s.tweets_data ++ [td] } true) ∧
    parse_tweet_time_to_timestamp "1969-12-31T00:00:00Z" 1700000000 =
      -86400 ∧
    parse_tweet_time_to_timestamp "50s" 10 = 0 := by
  refine ⟨fun _ => rfl, fun s now h => ?_, ?_, ?_, by decide, by decide⟩
  · rw [parse_eq_amendedResolve, h]
    rfl
  · intro hashFn cfg s it td htd hfp hdb hpin hne hts
    exact processCandidate_bootstrap hashFn cfg s it td htd hfp hdb hpin
      (Or.inr hts)
  · intro hashFn cfg s it td htd hfp hdb hpin hne hpos hge
    have hmain := processCandidate_resolved hashFn cfg s it td
      (parse_tweet_time_to_timestamp (timeStrOf td) cfg.now) htd rfl
      hfp hdb hpin hne hpos
    rw [hmain, if_neg (not_lt.mpr hge)]

/-- C10 witness: an item with the non-empty unresolvable time `"???"` is
handled by the bootstrap rule from the initial state, leaving `oldest`
untouched. -/
theorem claim_C10_witness :
    processCandidate hashLen cfgC3 (initState cfgC3) itemC10 =
      CandidateResult.cont
        { tweets_data := [extract_tweet_data itemC10 1], processed := [1],
          no_new_tweets_count := 0, scroll_attempts := 0,
          oldest := 1000000000 } true := by
  have h := claim_C10.2.2.1 hashLen cfgC3 (initState cfgC3) itemC10
    (extract_tweet_data itemC10 1) rfl (by decide) (by decide) (by decide)
    (by decide) (by decide)
  exact h.trans (by decide)

/-- Appending a record with the next index preserves `seqOk`. -/
lemma seqOk_append (l : List Record) (r : Record) (h : seqOk l)
    (hr : r.index = l.length + 1) : seqOk (l ++ [r]) := by
  unfold seqOk at h ⊢
  simp [List.range_succ, h, hr]

/-- One candidate step preserves the sequence-index invariant on the
continued state. -/
lemma processCandidate_seqOk_cont (hashFn : String → Int) (cfg : Config)
    (s : SessionState) (it : RawItem) (s' : SessionState) (b : Bool)
    (h : seqOk s.tweets_data)
    (heq : processCandidate hashFn cfg s it = CandidateResult.cont s' b) :
    seqOk s'.tweets_data := by
  have hidx : (extract_tweet_data it (s.tweets_data.length + 1)).index =
      s.tweets_data.length + 1 := rfl
  simp only [processCandidate] at heq
  split_ifs at heq <;> cases heq <;>
    first
      | exact h
      | exact seqOk_append s.tweets_data _ h hidx

/-- One candidate step preserves the sequence-index invariant on an early
return. -/
lemma processCandidate_seqOk_fin (hashFn : String → Int) (cfg : Config)
    (s : SessionState) (it : RawItem) (tw : List Record)
    (h : seqOk s.tweets_data)
    (heq : processCandidate hashFn cfg s it = CandidateResult.finished tw) :
    seqOk tw := by
  simp only [processCandidate] at heq
  split_ifs at heq
  cases heq
  exact h

/-- One round preserves the sequence-index invariant on the continued
state. -/
lemma processItems_seqOk_cont (hashFn : String → Int) (cfg : Config) :
    ∀ (items : List RawItem) (s : SessionState) (nf : Bool)
      (s' : SessionState) (b : Bool),
      seqOk s.tweets_data →
      processItems hashFn cfg s nf items = RoundResult.cont s' b →
      seqOk s'.tweets_data := by
  intro items
  induction items with
  | nil =>
    intro s nf s' b h heq
    cases heq
    exact h
  | cons a l ih =>
    intro s nf s' b h heq
    simp only [processItems] at heq
    cases hpc : processCandidate hashFn cfg s a with
    | finished tw => simp [hpc] at heq
    | cont sA isNew =>
      rw [hpc] at heq
      exact ih sA (nf || isNew) s' b
        (processCandidate_seqOk_cont hashFn cfg s a sA isNew h hpc) heq

/-- One round preserves the sequence-index invariant on an early return. -/
lemma processItems_seqOk_fin (hashFn : String → Int) (cfg : Config) :
    ∀ (items : List RawItem) (s : SessionState) (nf : Bool)
      (tw : List Record),
      seqOk s.tweets_data →
      processItems hashFn cfg s nf items = RoundResult.finished tw →
      seqOk tw := by
  intro items
  induction items with
  | nil =>
    intro s nf tw h heq
    cases heq
  | cons a l ih =>
    intro s nf tw h heq
    simp only [processItems] at heq
    cases hpc : processCandidate hashFn cfg s a with
    | finished tw2 =>
      rw [hpc] at heq
      have heq2 : tw2 = tw := by
        cases heq
        rfl
      exact heq2 ▸ processCandidate_seqOk_fin hashFn cfg s a tw2 h hpc
    | cont sA isNew =>
      rw [hpc] at heq
      exact ih sA (nf || isNew) tw
        (processCandidate_seqOk_cont hashFn cfg s a sA isNew h hpc) heq

/-- The whole loop preserves the sequence-index invariant. -/
lemma collectLoop_seqOk (hashFn : String → Int) (cfg : Config)
    (feed : Nat → List RawItem) :
    ∀ (fuel : Nat) (s : SessionState), seqOk s.tweets_data →
      seqOk (collectLoop hashFn cfg feed fuel s).1 := by
  intro fuel
  induction fuel with
  | zero => intro s h; exact h
  | succ n ih =>
    intro s h
    simp only [collectLoop]
    split
    · exact h
    · split
      · exact h
      · split
        · next tw heq =>
          exact processItems_seqOk_fin hashFn cfg (feed s.scroll_attempts) s
            false tw h heq
        · next s' newFound heq =>
          have h' := processItems_seqOk_cont hashFn cfg
            (feed s.scroll_attempts) s false s' newFound h heq
          split
          · split
            · exact h'
            · split
              · exact h'
              · exact ih _ h'
          · split
            · exact h'
            · exact ih _ h'

/-- C5: for every session the accepted records carry the sequence indices
`1, 2, 3, ...` in order of acceptance — unique, starting at one, strictly
increasing with no gaps, the `i`-th accepted record holding index `i`
(rejected candidates consume no index). -/
theorem claim_C5 :
    ∀ (hashFn : String → Int) (cfg : Config) (feed : Nat → List RawItem),
      (scroll_and_collect_tweets hashFn cfg feed).1.map (fun r => r.index) =
        (List.range (scroll_and_collect_tweets hashFn cfg feed).1.length).map
          (fun i => i + 1) := by
  intro hashFn cfg feed
  exact collectLoop_seqOk hashFn cfg feed 3000 (initState cfg) rfl

/-- A continuing candidate step never removes a fingerprint and records the
candidate's own fingerprint. -/
lemma processCandidate_processed_cont (hashFn : String → Int) (cfg : Config)
    (s : SessionState) (it : RawItem) (s' : SessionState) (b : Bool)
    (heq : processCandidate hashFn cfg s it = CandidateResult.cont s' b) :
    s.processed ⊆ s'.processed ∧ hashFn it.innerHTML ∈ s'.processed := by
  simp only [processCandidate] at heq
  split_ifs at heq with h1 h2 h3 h4 h5 h6 h7 h8 <;> cases heq <;>
    first
      | exact ⟨fun x hx => hx, h1⟩
      | exact ⟨List.subset_cons_self _ _, List.mem_cons_self _ _⟩

/-- A continuing round never removes a fingerprint. -/
lemma processItems_processed_cont (hashFn : String → Int) (cfg : Config) :
    ∀ (items : List RawItem) (s : SessionState) (nf : Bool)
      (s2 : SessionState) (b : Bool),
      processItems hashFn cfg s nf items = RoundResult.cont s2 b →
      s.processed ⊆ s2.processed := by
  intro items
  induction items with
  | nil =>
    intro s nf s2 b heq
    cases heq
    exact fun x hx => hx
  | cons a l ih =>
    intro s nf s2 b heq
    simp only [processItems] at heq
    cases hpc : processCandidate hashFn cfg s a with
    | finished tw => simp [hpc] at heq
    | cont sA isNew =>
      rw [hpc] at heq
      exact (processCandidate_processed_cont hashFn cfg s a sA isNew
        hpc).1.trans (ih sA (nf || isNew) s2 b heq)

/-- After a continuing round, every processed fingerprint is in the
fingerprint store. -/
lemma processItems_mem (hashFn : String → Int) (cfg : Config)
    (it : RawItem) :
    ∀ (items : List RawItem) (s : SessionState) (nf : Bool)
      (s2 : SessionState) (b : Bool),
      it ∈ items →
      processItems hashFn cfg s nf items = RoundResult.cont s2 b →
      hashFn it.innerHTML ∈ s2.processed := by
  intro items
  induction items with
  | nil =>
    intro s nf s2 b hit
    cases hit
  | cons a l ih =>
    intro s nf s2 b hit heq
    simp only [processItems] at heq
    cases hpc : processCandidate hashFn cfg s a with
    | finished tw => simp [hpc] at heq
    | cont sA isNew =>
      rw [hpc] at heq
      rcases List.mem_cons.mp hit with rfl | hit2
      · exact processItems_processed_cont hashFn cfg l sA (nf || isNew) s2 b
          heq
          (processCandidate_processed_cont hashFn cfg s it sA isNew hpc).2
      · exact ih sA (nf || isNew) s2 b hit2 heq

/-- C6: a raw item re-observed with byte-identical markup fingerprints to
the value recorded at its first observation, so in a later round that
reached state `s2` after processing a list containing the item, processing
the re-observation is a complete no-op: the state — in particular the
accepted list and its length — is unchanged. -/
theorem claim_C6 :
    ∀ (hashFn : String → Int) (cfg : Config) (s : SessionState)
      (items : List RawItem) (s2 : SessionState) (b : Bool)
      (it it2 : RawItem),
      it2.innerHTML = it.innerHTML →
      it ∈ items →
      processItems hashFn cfg s false items = RoundResult.cont s2 b →
      processCandidate hashFn cfg s2 it2 = CandidateResult.cont s2 false := by
  intro hashFn cfg s items s2 b it it2 hhtml hit heq
  apply processCandidate_seen
  rw [hhtml]
  exact processItems_mem hashFn cfg it items s false s2 b hit heq

/-- C6 witness: processing the single bootstrap item and then processing an
identical-markup copy again is a no-op. -/
theorem claim_C6_witness :
    processCandidate hashLen cfgC3
      { tweets_data := [extract_tweet_data (itemC3 0) 1], processed := [1],
        no_new_tweets_count := 0, scroll_attempts := 0, oldest := 1000000000 }
      (itemC3 0) =
      CandidateResult.cont
        { tweets_data := [extract_tweet_data (itemC3 0) 1], processed := [1],
          no_new_tweets_count := 0, scroll_attempts := 0,
          oldest := 1000000000 } false :=
  claim_C6 hashLen cfgC3 (initState cfgC3) [itemC3 0]
    { tweets_data := [extract_tweet_data (itemC3 0) 1], processed := [1],
      no_new_tweets_count := 0, scroll_attempts := 0, oldest := 1000000000 }
    true (itemC3 0) (itemC3 0) rfl (by decide) (by decide)

/-- A round all of whose items are already fingerprinted changes nothing and
reports no new item. -/
lemma processItems_all_seen (hashFn : String → Int) (cfg : Config) :
    ∀ (items : List RawItem) (s : SessionState) (nf : Bool),
      (∀ it ∈ items, hashFn it.innerHTML ∈ s.processed) →
      processItems hashFn cfg s nf items = RoundResult.cont s nf := by
  intro items
  induction items with
  | nil => intro s nf _; rfl
  | cons a l ih =>
    intro s nf h
    have hpc := processCandidate_seen hashFn cfg s a
      (h a (List.mem_cons_self a l))
    simp only [processItems, hpc, Bool.or_false]
    exact ih s nf fun it hit => h it (List.mem_cons_of_mem a hit)

/-- From a state whose next `j` rounds (`1 ≤ j`, enough budget left) observe
only already-seen fingerprints and whose stagnation counter reaches five on
the `j`-th of them, the loop ends with reason `stagnation` and the accepted
list unchanged. -/
lemma collectLoop_stagnant (hashFn : String → Int) (cfg : Config)
    (feed : Nat → List RawItem) :
    ∀ (j : Nat), 1 ≤ j → ∀ (fuel : Nat) (s : SessionState),
      s.no_new_tweets_count + j = 5 →
      s.tweets_data.length < cfg.max_tweets →
      s.scroll_attempts + j ≤ 3000 →
      (∀ k, k < j → ∀ it ∈ feed (s.scroll_attempts + k),
        hashFn it.innerHTML ∈ s.processed) →
      collectLoop hashFn cfg feed (fuel + j) s =
        (s.tweets_data, Reason.stagnation) := by
  intro j
  induction j with
  | zero => intro h; omega
  | succ n ih =>
    intro _ fuel s hcnt hlen hscr hseen
    have hg1 : ¬ s.tweets_data.length ≥ cfg.max_tweets := by omega
    have hg2 : ¬ s.scroll_attempts ≥ 3000 := by omega
    have hpi := processItems_all_seen hashFn cfg (feed s.scroll_attempts) s
      false (fun it hit => hseen 0 (by omega) it (by simpa using hit))
    have hfe : fuel + (n + 1) = (fuel + n) + 1 := rfl
    rw [hfe]
    simp only [collectLoop]
    rw [if_neg hg1, if_neg hg2]
    split
    · next tw heq =>
      rw [hpi] at heq
      simp at heq
    · next s' newFound heq =>
      rw [hpi] at heq
      injection heq with h1 h2
      subst h1
      subst h2
      simp only [eq_self_iff_true, if_true]
      cases n with
      | zero =>
        rw [if_pos (show s.no_new_tweets_count + 1 ≥ 5 by omega)]
      | succ m =>
        rw [if_neg (show ¬ s.no_new_tweets_count + 1 ≥ 5 by omega)]
        rw [if_neg (show ¬ (s.scroll_attempts + 1 ≥ 5000 ∨
          (s.scroll_attempts + 1 ≥ 3000 ∧ s.tweets_data.length < 5))
          by omega)]
        apply ih (by omega) fuel
        · show s.no_new_tweets_count + 1 + (m + 1) = 5
          omega
        · show s.tweets_data.length < cfg.max_tweets
          exact hlen
        · show s.scroll_attempts + 1 + (m + 1) ≤ 3000
          omega
        · intro k hk it hit
          show hashFn it.innerHTML ∈ s.processed
          have hidx : s.scroll_attempts + 1 + k = s.scroll_attempts + (k + 1)
            := by omega
          have hit2 : it ∈ feed (s.scroll_attempts + 1 + k) := hit
          rw [hidx] at hit2
          exact hseen (k + 1) (by omega) it hit2

/-- C7: every run of the collection loop terminates with a reason among
`itemLimit`, `roundLimit`, `stagnation`, `windowSatisfied` (the four exits
of the source loop); and — the stagnation threshold being the hardcoded 5 —
from any mid-run state with a reset stagnation counter, five consecutive
rounds observing no new fingerprint end the run with reason `stagnation`
and the accepted list exactly as it was before those rounds. -/
theorem claim_C7 :
    (∀ (hashFn : String → Int) (cfg : Config) (feed : Nat → List RawItem),
      (scroll_and_collect_tweets hashFn cfg feed).2 = Reason.itemLimit ∨
      (scroll_and_collect_tweets hashFn cfg feed).2 = Reason.roundLimit ∨
      (scroll_and_collect_tweets hashFn cfg feed).2 = Reason.stagnation ∨
      (scroll_and_collect_tweets hashFn cfg feed).2 =
        Reason.windowSatisfied) ∧
    (∀ (hashFn : String → Int) (cfg : Config) (feed : Nat → List RawItem)
        (fuel : Nat) (s : SessionState),
      s.no_new_tweets_count = 0 →
      s.tweets_data.length < cfg.max_tweets →
      s.scroll_attempts + 5 ≤ 3000 →
      (∀ k, k < 5 → ∀ it ∈ feed (s.scroll_attempts + k),
        hashFn it.innerHTML ∈ s.processed) →
      collectLoop hashFn cfg feed (fuel + 5) s =
        (s.tweets_data, Reason.stagnation)) := by
  constructor
  · intro hashFn cfg feed
    cases hr : (scroll_and_collect_tweets hashFn cfg feed).2 <;> simp
  · intro hashFn cfg feed fuel s h0 hlen hscr hseen
    exact collectLoop_stagnant hashFn cfg feed 5 (by omega) fuel s
      (by omega) hlen hscr hseen

/-- C7 witness: from a state that has already fingerprinted the only feed
item, five stagnant rounds end the run with reason `stagnation` and an
unchanged (empty) accepted list. -/
theorem claim_C7_witness :
    collectLoop hashLen
      { max_tweets := 3000, days_back := 0, now := 0, cutoff := 0 }
      (fun _ => [itemC3 0]) 5
      { tweets_data := [], processed := [1], no_new_tweets_count := 0,
        scroll_attempts := 0, oldest := 0 } =
      ([], Reason.stagnation) := by
  have h := claim_C7.2 hashLen
    { max_tweets := 3000, days_back := 0, now := 0, cutoff := 0 }
    (fun _ => [itemC3 0]) 0
    { tweets_data := [], processed := [1], no_new_tweets_count := 0,
      scroll_attempts := 0, oldest := 0 }
    rfl (by decide) (by decide) ?_
  · exact h
  · intro k hk it hit
    have hit2 : it = itemC3 0 := by simpa using hit
    subst hit2
    decide

/-- C8, counterexample: a raw item whose `tweetText` element exists with
empty text while its element text contains two literal backslash-`n`
sequences, so the backup strategy (split on that literal separator, index 2)
yields `"c"`. The claimed resolution rule ("first strategy yielding a
non-empty value wins") would take `"c"`; the code keeps the empty first
value and never tries the backup. -/
theorem claim_C8_counterexample :
    (extract_tweet_data rawC8 1).text = "" ∧
    specFirstNonEmpty (textStrategies rawC8) = "c" ∧
    (extract_tweet_data rawC8 1).text ≠
      specFirstNonEmpty (textStrategies rawC8) := by
  refine ⟨by decide, by decide, by decide⟩

/-- C8, amended: `extract(raw, index)` always returns a Record (the
embedding is total) whose fields are resolved independently, each by the
first strategy that succeeds — even when the extracted value is empty —
falling back to the field's zero value (empty string, empty mapping, false)
when every strategy fails; the text backup splits the element text on the
literal two-character sequence backslash-`n`, not on newlines; pin-status
detection is the disjunction of its three indicator probes and so defaults
to false. -/
theorem claim_C8 :
    ∀ (e : RawItem) (i : Nat),
      (extract_tweet_data e i).index = i ∧
      (extract_tweet_data e i).is_pinned =
        (e.socialContext || e.ariaPinned || e.svgPinned) ∧
      (∀ t, e.tweetText = some t →
        (extract_tweet_data e i).text = pyStrip t) ∧
      (e.tweetText = none →
        (extract_tweet_data e i).text =
          ((pySplitTwo e.fullText '\\' 'n').get? 2).getD "") ∧
      (e.userName = none → (extract_tweet_data e i).author = "") ∧
      (e.statusHref = none → (extract_tweet_data e i).url = "") ∧
      (e.groupSpans.length < 3 → (extract_tweet_data e i).engagement = []) ∧
      (e.timeElem = none → backupTime e.statusAriaLabels = "" →
        (extract_tweet_data e i).time = "" ∧
          (extract_tweet_data e i).date = "") := by
  intro e i
  refine ⟨rfl, rfl, fun t ht => ?_, fun ht => ?_, fun hu => ?_, fun hh => ?_,
    fun hg => ?_, fun ht hb => ?_⟩
  · simp [extract_tweet_data, ht]
  · simp [extract_tweet_data, ht]
  · simp [extract_tweet_data, hu]
  · simp [extract_tweet_data, hh]
  · rcases hgs : e.groupSpans with _ | ⟨a, _ | ⟨b, _ | ⟨c, rest⟩⟩⟩
    · simp [extract_tweet_data, hgs]
    · simp [extract_tweet_data, hgs]
    · simp [extract_tweet_data, hgs]
    · rw [hgs] at hg
      simp at hg
      omega
  · constructor <;> simp [extract_tweet_data, ht, hb]

/-- C8 witness: on the all-probes-missing item every field keeps its zero
value and the index is the given one. -/
theorem claim_C8_witness :
    (extract_tweet_data blankItem 1).index = 1 ∧
    (extract_tweet_data blankItem 1).text = "" := by
  constructor
  · exact (claim_C8 blankItem 1).1
  · have h := (claim_C8 blankItem 1).2.2.2.1 rfl
    exact h.trans (by decide)

end Crawler

